import Mathlib

/-!
Verification of the maze-game training simulation (`trainer.py`).

The Python code is shallowly embedded: Python ints become `Int`/`Nat`,
Python lists become `List`, grid indexing follows Python semantics
(negative indices wrap from the back, out-of-range raises, modelled by
`Option`), and code that can raise returns `Option` (with `none` as the
raised exception).  The `math.sqrt` comparisons `sqrt d ≤ r` on exact
integer inputs `d` hold iff `d ≤ r²` because IEEE `sqrt` is correctly
rounded and monotone and both sides of the comparison are exactly
representable, so those float comparisons are embedded as comparisons of
squared distances.  The square root that enters the fitness value itself
is kept as an abstract parameter `sqrtQ : Nat → ℚ` applied to the integer
squared distance; theorems assume of it only values the float square root
provably takes (such as `sqrtQ 0 = 0` and `sqrtQ 1 = 1`).
-/

/-- Module-level constants of `trainer.py`. -/
def MAX_PLAYER_MOVES : Nat := 100

def PLAYER_STARTING_HEALTH : Int := 100

def ENEMY_SHOOT_DAMAGE : Int := 20

def ENEMY_HIT_DAMAGE : Int := 50

def WALL_CELL_STATE_CODE : Nat := 1

def PLAYER_CELL_STATE_CODE : Nat := 2

def ENEMY_CELL_STATE_CODE : Nat := 3

/-- The level grid as loaded from JSON: a list of rows of integer cell codes. -/
abbrev Grid := List (List Nat)

/-- Python list indexing `l[i]`: a non-negative index counts from the front,
a negative index wraps from the back, anything out of range raises
(`none`). -/
def pyGet (l : List α) (i : Int) : Option α :=
  if 0 ≤ i then l.get? i.toNat
  else if 0 ≤ (l.length : Int) + i then l.get? ((l.length : Int) + i).toNat
  else none

/-- `grid[y][x]` with Python indexing semantics. -/
def gridCell (grid : Grid) (y x : Int) : Option Nat :=
  (pyGet grid y).bind (fun row => pyGet row x)

/-- The `EnemyAction` enum of `trainer.py`. -/
inductive EnemyAction where
  | MOVE_LEFT
  | MOVE_RIGHT
  | MOVE_UP
  | MOVE_DOWN
  | STAND_STILL
  | SHOOT_PLAYER
  | HIT_PLAYER
deriving DecidableEq, Repr

/-- `EnemyAction(i)`: Python enum lookup by value; raises `ValueError`
(`none`) when `i` is not the value of any member. -/
def EnemyAction.ofIndex (i : Int) : Option EnemyAction :=
  if i = 0 then some .MOVE_LEFT
  else if i = 1 then some .MOVE_RIGHT
  else if i = 2 then some .MOVE_UP
  else if i = 3 then some .MOVE_DOWN
  else if i = 4 then some .STAND_STILL
  else if i = 5 then some .SHOOT_PLAYER
  else if i = 6 then some .HIT_PLAYER
  else none

/-- The level-dependent state of `Trainer` (the NEAT config, output paths and
file I/O of `__init__` are external concerns and not modelled).
`player_start` is `none` when `find_start_positions` never assigned
`player_start_x` / `player_start_y` (accessing them later would raise
`AttributeError`). -/
structure Trainer where
  game_grid : Grid
  game_grid_height : Nat
  game_grid_width : Nat
  player_start : Option (Nat × Nat)
  enemy_start_positions : List (Int × Int)
deriving DecidableEq, Repr

/-- The player-spawn scan of `Trainer.find_start_positions`: the assignment is
executed for every cell with code 2 in row-major order, so the last such cell
wins; `none` when there is no such cell. -/
def findPlayerStart (grid : Grid) : Option (Nat × Nat) :=
  grid.enum.foldl
    (fun acc yrow =>
      yrow.2.enum.foldl
        (fun acc2 xc =>
          if xc.2 = PLAYER_CELL_STATE_CODE then some (xc.1, yrow.1) else acc2)
        acc)
    none

/-- The enemy-spawn scan of `Trainer.find_start_positions`, in row-major
append order. -/
def findEnemyStarts (grid : Grid) : List (Int × Int) :=
  grid.enum.foldl
    (fun acc yrow =>
      yrow.2.enum.foldl
        (fun acc2 xc =>
          if xc.2 = ENEMY_CELL_STATE_CODE then
            acc2 ++ [((xc.1 : Int), (yrow.1 : Int))]
          else acc2)
        acc)
    []

/-- The grid-loading part of `Trainer.__init__`: height is `len(grid)`,
width is `len(grid[0])` — which raises `IndexError` (`none`) when the grid
has no rows — followed by `find_start_positions`.  No other validation is
performed. -/
def Trainer.load (grid : Grid) : Option Trainer :=
  match grid with
  | [] => none
  | row0 :: _ =>
    some { game_grid := grid
           game_grid_height := grid.length
           game_grid_width := row0.length
           player_start := findPlayerStart grid
           enemy_start_positions := findEnemyStarts grid }

/-- `Trainer.get_new_position`.  The Python `and` short-circuits, so a grid
cell is read only when the bound check before it passed; a failing grid read
propagates as `none`. -/
def Trainer.get_new_position (t : Trainer) (current_x current_y : Int)
    (horizontal_movement : Int := 0) (vertical_movement : Int := 0) :
    Option (Int × Int) :=
  if horizontal_movement = 1 then
    if current_x < (t.game_grid_width : Int) - 1 then
      match gridCell t.game_grid current_y (current_x + 1) with
      | none => none
      | some c =>
        if c ≠ WALL_CELL_STATE_CODE then some (current_x + 1, current_y)
        else some (current_x, current_y)
    else some (current_x, current_y)
  else if horizontal_movement = -1 then
    if 0 < current_x then
      match gridCell t.game_grid current_y (current_x - 1) with
      | none => none
      | some c =>
        if c ≠ WALL_CELL_STATE_CODE then some (current_x - 1, current_y)
        else some (current_x, current_y)
    else some (current_x, current_y)
  else if vertical_movement = 1 then
    if current_x = (t.game_grid_width : Int) - 1 ∧
        current_y < (t.game_grid_height : Int) - 1 then
      some (current_x, current_y + 1)
    else if current_y < (t.game_grid_height : Int) - 1 then
      match gridCell t.game_grid (current_y + 1) current_x with
      | none => none
      | some c =>
        if c ≠ WALL_CELL_STATE_CODE then some (current_x, current_y + 1)
        else some (current_x, current_y)
    else some (current_x, current_y)
  else if vertical_movement = -1 then
    if 0 < current_y then
      match gridCell t.game_grid (current_y - 1) current_x with
      | none => none
      | some c =>
        if c ≠ WALL_CELL_STATE_CODE then some (current_x, current_y - 1)
        else some (current_x, current_y)
    else some (current_x, current_y)
  else some (current_x, current_y)

/-- `Trainer.get_valid_moves`: the current cell, then the checked left, right,
up appends, then the unconditional bottom-right-corner append, then the
checked down append, in source order. -/
def Trainer.get_valid_moves (t : Trainer) (x y : Int) :
    Option (List (Int × Int)) :=
  (if 0 < x then
    match gridCell t.game_grid y (x - 1) with
    | none => none
    | some c =>
      some (if c ≠ WALL_CELL_STATE_CODE then [(x, y)] ++ [(x - 1, y)]
        else [(x, y)])
  else some [(x, y)]).bind (fun vm1 =>
  (if x < (t.game_grid_width : Int) - 1 then
    match gridCell t.game_grid y (x + 1) with
    | none => none
    | some c =>
      some (if c ≠ WALL_CELL_STATE_CODE then vm1 ++ [(x + 1, y)] else vm1)
  else some vm1).bind (fun vm2 =>
  (if 0 < y then
    match gridCell t.game_grid (y - 1) x with
    | none => none
    | some c =>
      some (if c ≠ WALL_CELL_STATE_CODE then vm2 ++ [(x, y - 1)] else vm2)
  else some vm2).bind (fun vm3 =>
  if y < (t.game_grid_height : Int) - 1 then
    match gridCell t.game_grid (y + 1) x with
    | none => none
    | some c =>
      some (if c ≠ WALL_CELL_STATE_CODE then
          (if x = (t.game_grid_width : Int) - 1 ∧
              y = (t.game_grid_height : Int) - 1
            then vm3 ++ [(x, y + 1)] else vm3) ++ [(x, y + 1)]
        else
          (if x = (t.game_grid_width : Int) - 1 ∧
              y = (t.game_grid_height : Int) - 1
            then vm3 ++ [(x, y + 1)] else vm3))
  else some (if x = (t.game_grid_width : Int) - 1 ∧
      y = (t.game_grid_height : Int) - 1
    then vm3 ++ [(x, y + 1)] else vm3))))

/-- Python `range(a, b)` as a list of `Int`. -/
def intRange (a b : Int) : List Int :=
  (List.range (b - a).toNat).map (fun i : Nat => a + (i : Int))

/-- `all(grid[y][x] != WALL for x in xs)`: lazy, stops at the first wall
(`some false`) and raises (`none`) only if an index error occurs before
that. -/
def allCellsNonWallRow (grid : Grid) (y : Int) : List Int → Option Bool
  | [] => some true
  | x :: xs =>
    match gridCell grid y x with
    | none => none
    | some c =>
      if c = WALL_CELL_STATE_CODE then some false
      else allCellsNonWallRow grid y xs

/-- `all(grid[y][x] != WALL for y in ys)` for a fixed column `x`. -/
def allCellsNonWallCol (grid : Grid) (x : Int) : List Int → Option Bool
  | [] => some true
  | y :: ys =>
    match gridCell grid y x with
    | none => none
    | some c =>
      if c = WALL_CELL_STATE_CODE then some false
      else allCellsNonWallCol grid x ys

/-- The `SHOOT_PLAYER` branch of the action dispatch.  The float comparison
`math.sqrt(dx² + dy²) <= 3` is embedded as `dx² + dy² ≤ 9` (see the header
note).  The row check runs first and its damage is visible to the column
check, exactly as the two successive conditionals in the source. -/
def shootPlayer (grid : Grid) (enemy_x enemy_y player_x player_y : Int)
    (player_health : Int) : Option Int :=
  if (player_x - enemy_x) ^ 2 + (player_y - enemy_y) ^ 2 ≤ 9 then
    (if enemy_y = player_y then
      (if enemy_x ≤ player_x then
        (allCellsNonWallRow grid enemy_y (intRange enemy_x player_x)).map
          (fun ok => if ok then player_health - ENEMY_SHOOT_DAMAGE
                     else player_health)
      else
        (allCellsNonWallRow grid enemy_y (intRange player_x enemy_x)).map
          (fun ok => if ok then player_health - ENEMY_SHOOT_DAMAGE
                     else player_health))
    else some player_health).bind (fun h1 =>
      if enemy_x = player_x then
        (if enemy_y ≤ player_y then
          (allCellsNonWallCol grid enemy_x (intRange enemy_y player_y)).map
            (fun ok => if ok then h1 - ENEMY_SHOOT_DAMAGE else h1)
        else
          (allCellsNonWallCol grid enemy_x (intRange player_y enemy_y)).map
            (fun ok => if ok then h1 - ENEMY_SHOOT_DAMAGE else h1))
      else some h1)
  else some player_health

/-- The `HIT_PLAYER` branch: `math.sqrt(dx² + dy²) <= 1` embedded as
`dx² + dy² ≤ 1`; no grid access at all. -/
def hitPlayer (enemy_x enemy_y player_x player_y : Int)
    (player_health : Int) : Int :=
  if (player_x - enemy_x) ^ 2 + (player_y - enemy_y) ^ 2 ≤ 1 then
    player_health - ENEMY_HIT_DAMAGE
  else player_health

/-- The external decision policy (`neural_network.activate`): an opaque map
from the observation vector to an output vector. -/
abbrev Policy := List ℚ → List ℚ

/-- The observation vector built for one enemy in `play_game_no_display`:
normalized one-based enemy index, normalized one-based player position,
normalized health, then normalized one-based positions of every enemy in
spawn order. -/
def networkInputs (t : Trainer) (enemy_index : Nat) (player_x player_y : Int)
    (player_health : Int) (enemy_positions : List (Int × Int)) : List ℚ :=
  [((enemy_index : ℚ) + 1) / (enemy_positions.length : ℚ),
   ((player_x : ℚ) + 1) / (t.game_grid_width : ℚ),
   ((player_y : ℚ) + 1) / (t.game_grid_height : ℚ),
   (player_health : ℚ) / ((PLAYER_STARTING_HEALTH : Int) : ℚ)] ++
  (enemy_positions.map (fun p =>
    [((p.1 : ℚ) + 1) / (t.game_grid_width : ℚ),
     ((p.2 : ℚ) + 1) / (t.game_grid_height : ℚ)])).flatten

/-- The decision-selection loop: running maximum initialised to `-1`,
running decision initialised to `-1`, updated only on strictly greater
output values. -/
def argmaxLoop : List ℚ → ℚ → Int → Nat → Int
  | [], _, decision, _ => decision
  | v :: vs, largest, decision, i =>
    if largest < v then argmaxLoop vs v (i : Int) (i + 1)
    else argmaxLoop vs largest decision (i + 1)

/-- `decision` after the selection loop over the policy output vector. -/
def selectDecision (output : List ℚ) : Int :=
  argmaxLoop output (-1) (-1) 0

/-- The `match decision` dispatch for a single enemy: returns the enemy's
new position and the player's new health; `none` when a movement's grid
read raises. -/
def enemyAct (t : Trainer) (action : EnemyAction) (enemy_x enemy_y : Int)
    (player_x player_y : Int) (player_health : Int) :
    Option ((Int × Int) × Int) :=
  match action with
  | .MOVE_LEFT =>
    (t.get_new_position enemy_x enemy_y (-1) 0).map (fun p => (p, player_health))
  | .MOVE_RIGHT =>
    (t.get_new_position enemy_x enemy_y 1 0).map (fun p => (p, player_health))
  | .MOVE_UP =>
    (t.get_new_position enemy_x enemy_y 0 (-1)).map (fun p => (p, player_health))
  | .MOVE_DOWN =>
    (t.get_new_position enemy_x enemy_y 0 1).map (fun p => (p, player_health))
  | .STAND_STILL => some ((enemy_x, enemy_y), player_health)
  | .SHOOT_PLAYER =>
    (shootPlayer t.game_grid enemy_x enemy_y player_x player_y
      player_health).map (fun h => ((enemy_x, enemy_y), h))
  | .HIT_PLAYER =>
    some ((enemy_x, enemy_y), hitPlayer enemy_x enemy_y player_x player_y
      player_health)

/-- The mutable episode state inside one trajectory of
`play_game_no_display`: player health, the (in-place mutated) enemy
position list, and the fitness accumulated so far for this policy. -/
structure SimState where
  player_health : Int
  enemy_positions : List (Int × Int)
  fitness : ℚ
deriving DecidableEq, Repr

/-- The inner `for enemy_index, (enemy_x, enemy_y) in enumerate(...)` loop
starting at index `i` with `fuel` iterations left.  Each iteration queries
the policy, selects and runs the action (raising, as `none`, on an invalid
decision index), adds the `+0.1` shaping reward when the stored position
changed, stores the new position, subtracts the proximity term
`sqrtQ d² / MAX_PLAYER_MOVES²`, and breaks as soon as health is `≤ 0`. -/
def runEnemies (t : Trainer) (pol : Policy) (sqrtQ : Nat → ℚ)
    (player_x player_y : Int) : Nat → Nat → SimState → Option SimState
  | _, 0, s => some s
  | i, fuel + 1, s =>
    match s.enemy_positions.get? i with
    | none => some s
    | some (enemy_x, enemy_y) =>
      let output := pol (networkInputs t i player_x player_y
        s.player_health s.enemy_positions)
      match EnemyAction.ofIndex (selectDecision output) with
      | none => none
      | some action =>
        match enemyAct t action enemy_x enemy_y player_x player_y
          s.player_health with
        | none => none
        | some ((ex2, ey2), h2) =>
          let fit1 :=
            if (enemy_x, enemy_y) ≠ (ex2, ey2) then s.fitness + 1 / 10
            else s.fitness
          let positions2 := s.enemy_positions.set i (ex2, ey2)
          let fit2 := fit1 -
            sqrtQ ((player_x - ex2) ^ 2 + (player_y - ey2) ^ 2).toNat /
              ((MAX_PLAYER_MOVES : ℚ) ^ 2)
          let s2 : SimState := ⟨h2, positions2, fit2⟩
          if h2 ≤ 0 then some s2
          else runEnemies t pol sqrtQ player_x player_y (i + 1) fuel s2

/-- How one trajectory's loop exited. -/
inductive Outcome where
  | escaped
  | defeated
  | moveLimit
deriving DecidableEq, Repr

/-- The observable result of one trajectory's loop: final health, the value
of `moves_made`, the fitness accumulated during the loop, the final enemy
positions, and which exit of the loop was taken. -/
structure SimResult where
  player_health : Int
  moves_made : Nat
  fitness : ℚ
  enemy_positions : List (Int × Int)
  outcome : Outcome
deriving DecidableEq, Repr

/-- The `for player_x, player_y in moves` loop: `moves_made` increments
first, then the escape check `(player_x, player_y) = (W - 1, H)` breaks the
loop before any enemy acts, otherwise all enemies act and a health check
breaks the loop; exhausting the list is the move-limit exit. -/
def runMoves (t : Trainer) (pol : Policy) (sqrtQ : Nat → ℚ) :
    List (Int × Int) → Nat → SimState → Option SimResult
  | [], made, s =>
    some ⟨s.player_health, made, s.fitness, s.enemy_positions, .moveLimit⟩
  | (px, py) :: rest, made, s =>
    if px = (t.game_grid_width : Int) - 1 ∧ py = (t.game_grid_height : Int)
    then
      some ⟨s.player_health, made + 1, s.fitness, s.enemy_positions, .escaped⟩
    else
      match runEnemies t pol sqrtQ px py 0 s.enemy_positions.length s with
      | none => none
      | some s2 =>
        if s2.player_health ≤ 0 then
          some ⟨s2.player_health, made + 1, s2.fitness, s2.enemy_positions,
            .defeated⟩
        else runMoves t pol sqrtQ rest (made + 1) s2

/-- One trajectory of `play_game_no_display`, up to (but not including) the
terminal fitness adjustment: health starts at `PLAYER_STARTING_HEALTH`,
enemies at their spawn positions, and the fitness contribution of this
trajectory at `0`. -/
def simulateSteps (t : Trainer) (pol : Policy) (sqrtQ : Nat → ℚ)
    (moves : List (Int × Int)) : Option SimResult :=
  runMoves t pol sqrtQ moves 0
    ⟨PLAYER_STARTING_HEALTH, t.enemy_start_positions, 0⟩

/-- The magnitude `(MAX_PLAYER_MOVES - moves_made)² +
(PLAYER_STARTING_HEALTH - player_health)` of the terminal fitness
adjustment. -/
def terminalMagnitude (r : SimResult) : ℚ :=
  ((((MAX_PLAYER_MOVES : Int) - (r.moves_made : Int)) ^ 2 +
    ((PLAYER_STARTING_HEALTH : Int) - r.player_health) : Int) : ℚ)

/-- One trajectory's total fitness contribution: the loop fitness followed
by the single terminal adjustment after the loop, subtracted when final
health is positive and added otherwise. -/
def playTrajectoryFitness (t : Trainer) (pol : Policy) (sqrtQ : Nat → ℚ)
    (moves : List (Int × Int)) : Option ℚ :=
  match simulateSteps t pol sqrtQ moves with
  | none => none
  | some r =>
    if 0 < r.player_health then some (r.fitness - terminalMagnitude r)
    else some (r.fitness + terminalMagnitude r)

/-- A 2×2 level with a wall at (1, 1): exercises the down-move from the
rightmost column. -/
def wallBelowGrid : Grid := [[2, 0], [0, 1]]

/-- The trainer `Trainer.__init__` builds from `wallBelowGrid`. -/
def wallBelowTrainer : Trainer :=
  ⟨wallBelowGrid, 2, 2, some (0, 0), []⟩

/-- The ragged 2-row level `[[0, 0], [0]]`: inconsistent row lengths and no
player-spawn cell. -/
def raggedGrid : Grid := [[0, 0], [0]]

/-- The spec's shoot-blocking example level: a Wall at (1, 1). -/
def wallBetweenGrid : Grid := [[0, 0, 0], [0, 1, 0], [0, 0, 0]]

/-- The 3×3 wall-free level of the spec's fitness example: player spawn at
(0, 0) and one enemy at (2, 0). -/
def exGrid : Grid := [[2, 0, 3], [0, 0, 0], [0, 0, 0]]

/-- The trainer built from `exGrid`. -/
def exTrainer : Trainer := ⟨exGrid, 3, 3, some (0, 0), [(2, 0)]⟩

/-- A policy whose output vector always selects `STAND_STILL` (index 4). -/
def standPolicy : Policy := fun _ => [0, 0, 0, 0, 1, 0, 0]

/-- One concrete realization of the abstract square root on integer
squared distances (used to instantiate witnesses; it agrees with the float
square root on the perfect squares the examples need). -/
def sqrtRat (n : Nat) : ℚ := (Nat.sqrt n : ℚ)

/-- The loop result of the spec's fitness example: survives with full
health, both trajectory entries consumed, fitness is the pure proximity
term −1/10000. -/
def exResult : SimResult := ⟨100, 2, -(1 / 10000), [(2, 0)], Outcome.moveLimit⟩

/-- C1: the claim says `get_new_position` at (W−1, H−1) moving down yields
the escape coordinate (W−1, H).  The code's guard is `current_y < H - 1`,
which the bottom-right corner fails, so the move is absorbed instead: the
result is the unchanged (W−1, H−1), which differs from the escape
coordinate. -/
theorem get_new_position_corner_down_does_not_escape (t : Trainer) :
    t.get_new_position ((t.game_grid_width : Int) - 1)
        ((t.game_grid_height : Int) - 1) 0 1 =
      some ((t.game_grid_width : Int) - 1, (t.game_grid_height : Int) - 1) ∧
    ((t.game_grid_width : Int) - 1, (t.game_grid_height : Int) - 1) ≠
      ((t.game_grid_width : Int) - 1, (t.game_grid_height : Int)) := by
  constructor
  · simp [Trainer.get_new_position]
  · simp only [ne_eq, Prod.mk.injEq, not_and]
    intro _
    omega

/-- C2: the claim says a down-move whose destination is a Wall never moves
the entity.  On `wallBelowGrid`, from (1, 0) — the rightmost column — the
code's unconditional rightmost-column branch moves the entity down into
the Wall at (1, 1). -/
theorem get_new_position_down_moves_into_wall :
    Trainer.load wallBelowGrid = some wallBelowTrainer ∧
    wallBelowTrainer.get_new_position 1 0 0 1 = some (1, 1) ∧
    gridCell wallBelowGrid 1 1 = some WALL_CELL_STATE_CODE := by
  refine ⟨?_, ?_, ?_⟩ <;> decide

/-- C3 counterexample: the claim says construction fails on inconsistent
row lengths and on a missing PlayerSpawn; `raggedGrid` has both defects,
yet loading succeeds. -/
theorem load_accepts_ragged_grid_without_spawn :
    (Trainer.load raggedGrid).isSome = true := by
  decide

/-- C3 amended: construction fails only when the grid has no rows at all
(reading row 0 for the width raises); every non-empty grid — ragged,
zero-width, or without a PlayerSpawn — is accepted without any check. -/
theorem load_fails_iff_no_rows (g : Grid) :
    (Trainer.load g).isSome ↔ g ≠ [] := by
  cases g <;> simp [Trainer.load]

/-- C4: when attacker and player coincide, both the row-alignment and the
column-alignment conditionals fire on empty strictly-between ranges, so the
20-point ranged damage is applied twice: any shot from the player's own
cell drops health by 40, on every grid. -/
theorem shootPlayer_colocated_double_damage (grid : Grid) (x y h : Int) :
    shootPlayer grid x y x y h = some (h - 40) := by
  have hr : intRange x x = [] := by
    simp [intRange]
  have hr2 : intRange y y = [] := by
    simp [intRange]
  simp [shootPlayer, hr, hr2, allCellsNonWallRow, allCellsNonWallCol,
    ENEMY_SHOOT_DAMAGE]
  ring_nf

/-- C8: the shot is a no-op outside squared distance 9 or off both axes,
and melee hits — walls never considered — exactly within squared
distance 1, for the fixed 50 damage. -/
theorem shoot_range_alignment_and_melee (grid : Grid) (ex ey px py h : Int) :
    (9 < (px - ex) ^ 2 + (py - ey) ^ 2 →
      shootPlayer grid ex ey px py h = some h) ∧
    (ey ≠ py → ex ≠ px → shootPlayer grid ex ey px py h = some h) ∧
    ((px - ex) ^ 2 + (py - ey) ^ 2 ≤ 1 →
      hitPlayer ex ey px py h = h - ENEMY_HIT_DAMAGE) ∧
    (1 < (px - ex) ^ 2 + (py - ey) ^ 2 → hitPlayer ex ey px py h = h) := by
  refine ⟨?_, ?_, ?_, ?_⟩
  · intro hd
    simp [shootPlayer, not_le.mpr hd]
  · intro h1 h2
    by_cases hd : (px - ex) ^ 2 + (py - ey) ^ 2 ≤ 9 <;>
      simp [shootPlayer, hd, h1, h2]
  · intro hd
    simp [hitPlayer, hd]
  · intro hd
    simp [hitPlayer, not_le.mpr hd]

/-- C8 witness: distance 5 > 3 shot, a diagonal shot, an adjacent melee hit
and a distance-2 melee miss, all on the trivial one-cell grid. -/
theorem shoot_range_alignment_and_melee_witness :
    shootPlayer [[0]] 0 0 5 0 77 = some 77 ∧
    shootPlayer [[0]] 0 0 2 1 77 = some 77 ∧
    hitPlayer 0 0 1 0 77 = 27 ∧
    hitPlayer 0 0 2 0 77 = 77 := by
  refine ⟨(shoot_range_alignment_and_melee [[0]] 0 0 5 0 77).1 (by norm_num),
    (shoot_range_alignment_and_melee [[0]] 0 0 2 1 77).2.1 (by norm_num)
      (by norm_num),
    ((shoot_range_alignment_and_melee [[0]] 0 0 1 0 77).2.2.1
      (by norm_num)).trans (by norm_num [ENEMY_HIT_DAMAGE]),
    (shoot_range_alignment_and_melee [[0]] 0 0 2 0 77).2.2.2 (by norm_num)⟩

lemma mem_intRange {a b x : Int} : x ∈ intRange a b ↔ a ≤ x ∧ x < b := by
  unfold intRange
  constructor
  · intro hx
    obtain ⟨i, hi, rfl⟩ := List.mem_map.mp hx
    have := List.mem_range.mp hi
    omega
  · rintro ⟨h1, h2⟩
    exact List.mem_map.mpr
      ⟨(x - a).toNat, List.mem_range.mpr (by omega), by omega⟩

lemma allCellsNonWallRow_true {grid : Grid} {y : Int} {l : List Int}
    (h : allCellsNonWallRow grid y l = some true) :
    ∀ x ∈ l, gridCell grid y x ≠ some WALL_CELL_STATE_CODE := by
  induction l with
  | nil => intro x hx; simp at hx
  | cons a as ih =>
    intro x hx
    cases hc : gridCell grid y a with
    | none => simp only [allCellsNonWallRow, hc] at h; exact absurd h (by simp)
    | some c =>
      simp only [allCellsNonWallRow, hc] at h
      by_cases hw : c = WALL_CELL_STATE_CODE
      · rw [if_pos hw] at h; simp at h
      · rw [if_neg hw] at h
        rcases List.mem_cons.mp hx with rfl | hx2
        · rw [hc]; simp [hw]
        · exact ih h x hx2

lemma allCellsNonWallCol_true {grid : Grid} {x : Int} {l : List Int}
    (h : allCellsNonWallCol grid x l = some true) :
    ∀ y ∈ l, gridCell grid y x ≠ some WALL_CELL_STATE_CODE := by
  induction l with
  | nil => intro y hy; simp at hy
  | cons a as ih =>
    intro y hy
    cases hc : gridCell grid a x with
    | none => simp only [allCellsNonWallCol, hc] at h; exact absurd h (by simp)
    | some c =>
      simp only [allCellsNonWallCol, hc] at h
      by_cases hw : c = WALL_CELL_STATE_CODE
      · rw [if_pos hw] at h; simp at h
      · rw [if_neg hw] at h
        rcases List.mem_cons.mp hy with rfl | hy2
        · rw [hc]; simp [hw]
        · exact ih h y hy2

/-- C7: whenever the shot resolves without raising and a Wall stands
strictly between attacker and player on their shared row or shared column,
health is unchanged. -/
theorem shootPlayer_blocked_by_wall (grid : Grid) (ex ey px py h h2 : Int)
    (hs : shootPlayer grid ex ey px py h = some h2)
    (hblock :
      (ey = py ∧ ∃ x0 : Int, ((ex < x0 ∧ x0 < px) ∨ (px < x0 ∧ x0 < ex)) ∧
        gridCell grid ey x0 = some WALL_CELL_STATE_CODE) ∨
      (ex = px ∧ ∃ y0 : Int, ((ey < y0 ∧ y0 < py) ∨ (py < y0 ∧ y0 < ey)) ∧
        gridCell grid y0 ex = some WALL_CELL_STATE_CODE)) :
    h2 = h := by
  unfold shootPlayer at hs
  by_cases hd : (px - ex) ^ 2 + (py - ey) ^ 2 ≤ 9
  case neg =>
    rw [if_neg hd] at hs
    injection hs with hs
    exact hs.symm
  rw [if_pos hd] at hs
  rcases hblock with ⟨hey, x0, hx0, hwall⟩ | ⟨hex, y0, hy0, hwall⟩
  · -- row-aligned with a wall strictly between, so ex ≠ px and the
    -- column conditional cannot fire either
    have hne : ex ≠ px := by omega
    rw [if_pos hey] at hs
    rcases hx0 with ⟨hlt1, hlt2⟩ | ⟨hlt1, hlt2⟩
    · rw [if_pos (by omega : ex ≤ px)] at hs
      cases hall : allCellsNonWallRow grid ey (intRange ex px) with
      | none => rw [hall] at hs; simp at hs
      | some b =>
        cases b with
        | true =>
          exact absurd hwall
            (allCellsNonWallRow_true hall x0 (mem_intRange.mpr ⟨by omega, hlt2⟩))
        | false =>
          rw [hall] at hs
          simp [hne] at hs
          exact hs.symm
    · rw [if_neg (by omega : ¬ ex ≤ px)] at hs
      cases hall : allCellsNonWallRow grid ey (intRange px ex) with
      | none => rw [hall] at hs; simp at hs
      | some b =>
        cases b with
        | true =>
          exact absurd hwall
            (allCellsNonWallRow_true hall x0 (mem_intRange.mpr ⟨by omega, hlt2⟩))
        | false =>
          rw [hall] at hs
          simp [hne] at hs
          exact hs.symm
  · -- column-aligned with a wall strictly between, so ey ≠ py and the
    -- row conditional cannot fire
    have hne : ey ≠ py := by omega
    rw [if_neg hne] at hs
    simp only [Option.some_bind] at hs
    rw [if_pos hex] at hs
    rcases hy0 with ⟨hlt1, hlt2⟩ | ⟨hlt1, hlt2⟩
    · rw [if_pos (by omega : ey ≤ py)] at hs
      cases hall : allCellsNonWallCol grid ex (intRange ey py) with
      | none => rw [hall] at hs; simp at hs
      | some b =>
        cases b with
        | true =>
          exact absurd hwall
            (allCellsNonWallCol_true hall y0 (mem_intRange.mpr ⟨by omega, hlt2⟩))
        | false =>
          rw [hall] at hs
          simp at hs
          exact hs.symm
    · rw [if_neg (by omega : ¬ ey ≤ py)] at hs
      cases hall : allCellsNonWallCol grid ex (intRange py ey) with
      | none => rw [hall] at hs; simp at hs
      | some b =>
        cases b with
        | true =>
          exact absurd hwall
            (allCellsNonWallCol_true hall y0 (mem_intRange.mpr ⟨by omega, hlt2⟩))
        | false =>
          rw [hall] at hs
          simp at hs
          exact hs.symm

/-- C7 witness: the spec's example — enemy at (0, 1), player at (2, 1),
Wall at (1, 1) — resolves to unchanged health. -/
theorem shootPlayer_blocked_by_wall_witness :
    shootPlayer wallBetweenGrid 0 1 2 1 100 = some 100 ∧
    gridCell wallBetweenGrid 1 1 = some WALL_CELL_STATE_CODE ∧
    (100 : Int) = 100 := by
  refine ⟨by decide, by decide,
    shootPlayer_blocked_by_wall wallBetweenGrid 0 1 2 1 100 100 (by decide)
      (Or.inl ⟨rfl, 1, Or.inl (by norm_num), by decide⟩)⟩

lemma pyGet_of_lt {l : List α} {i : Int} (h0 : 0 ≤ i)
    (h1 : i < (l.length : Int)) :
    ∃ a, pyGet l i = some a ∧ l.get? i.toNat = some a := by
  have hlt : i.toNat < l.length := by omega
  obtain ⟨a, ha⟩ : ∃ a, l.get? i.toNat = some a :=
    ⟨_, List.get?_eq_get hlt⟩
  refine ⟨a, ?_, ha⟩
  rw [pyGet, if_pos h0]
  exact ha

lemma gridCell_some {grid : Grid} {W : Nat}
    (hW : ∀ row ∈ grid, row.length = W) {a b : Int}
    (ha : 0 ≤ a) (haW : a < (W : Int)) (hb : 0 ≤ b)
    (hbH : b < (grid.length : Int)) :
    ∃ c, gridCell grid b a = some c := by
  obtain ⟨row, hrow, hrow2⟩ := pyGet_of_lt hb hbH
  have hmem : row ∈ grid := List.get?_mem hrow2
  have hlen : row.length = W := hW row hmem
  obtain ⟨c, hc, -⟩ := pyGet_of_lt (l := row) ha (by rw [hlen]; exact haW)
  exact ⟨c, by simp [gridCell, hrow, hc]⟩

lemma checkedAppendSpec (g : Grid) (cond : Prop) [Decidable cond]
    (cy cx : Int) (vm : List (Int × Int)) (q : Int × Int)
    (hcell : cond → ∃ c, gridCell g cy cx = some c) :
    ∃ vm2,
      (if cond then
        match gridCell g cy cx with
        | none => none
        | some c =>
          some (if c ≠ WALL_CELL_STATE_CODE then vm ++ [q] else vm)
      else some vm) = some vm2 ∧
      (∀ p ∈ vm, p ∈ vm2) ∧
      ∀ p ∈ vm2, p ∈ vm ∨
        (cond ∧ p = q ∧ gridCell g cy cx ≠ some WALL_CELL_STATE_CODE) := by
  by_cases h : cond
  · obtain ⟨c, hc⟩ := hcell h
    by_cases hw : c = WALL_CELL_STATE_CODE
    · refine ⟨vm, ?_, fun p hp => hp, fun p hp => Or.inl hp⟩
      rw [if_pos h]
      simp [hc, hw]
    · refine ⟨vm ++ [q], ?_, fun p hp => List.mem_append_left _ hp, ?_⟩
      · rw [if_pos h]
        simp [hc, hw]
      · intro p hp
        rcases List.mem_append.mp hp with hp2 | hp2
        · exact Or.inl hp2
        · exact Or.inr ⟨h, by simpa using hp2, by rw [hc]; simp [hw]⟩
  · exact ⟨vm, by rw [if_neg h], fun p hp => hp, fun p hp => Or.inl hp⟩

/-- C6: on a rectangular grid, queried at an in-bounds non-Wall cell,
`get_valid_moves` succeeds, its result contains the current cell, contains
the escape transition (W−1, H) exactly when standing at (W−1, H−1), and
every member is either that escape transition or an in-bounds non-Wall
cell. -/
theorem get_valid_moves_members (t : Trainer) (x y : Int)
    (hrect1 : t.game_grid.length = t.game_grid_height)
    (hrect2 : ∀ row ∈ t.game_grid, row.length = t.game_grid_width)
    (hx : 0 ≤ x) (hx2 : x < (t.game_grid_width : Int))
    (hy : 0 ≤ y) (hy2 : y < (t.game_grid_height : Int))
    (hcur : gridCell t.game_grid y x ≠ some WALL_CELL_STATE_CODE) :
    ∃ l, t.get_valid_moves x y = some l ∧
      (x, y) ∈ l ∧
      ((x = (t.game_grid_width : Int) - 1 ∧
        y = (t.game_grid_height : Int) - 1) → (x, y + 1) ∈ l) ∧
      ∀ p ∈ l,
        (p = (x, y + 1) ∧ x = (t.game_grid_width : Int) - 1 ∧
          y = (t.game_grid_height : Int) - 1) ∨
        (0 ≤ p.1 ∧ p.1 < (t.game_grid_width : Int) ∧ 0 ≤ p.2 ∧
          p.2 < (t.game_grid_height : Int) ∧
          gridCell t.game_grid p.2 p.1 ≠ some WALL_CELL_STATE_CODE) := by
  have hlen : (t.game_grid.length : Int) = (t.game_grid_height : Int) := by
    exact_mod_cast hrect1
  obtain ⟨vm1, h1eq, h1mono, h1mem⟩ :=
    checkedAppendSpec t.game_grid (0 < x) y (x - 1) [(x, y)] (x - 1, y)
      (fun h => gridCell_some hrect2 (by omega) (by omega) hy (by omega))
  obtain ⟨vm2, h2eq, h2mono, h2mem⟩ :=
    checkedAppendSpec t.game_grid (x < (t.game_grid_width : Int) - 1) y
      (x + 1) vm1 (x + 1, y)
      (fun h => gridCell_some hrect2 (by omega) (by omega) hy (by omega))
  obtain ⟨vm3, h3eq, h3mono, h3mem⟩ :=
    checkedAppendSpec t.game_grid (0 < y) (y - 1) x vm2 (x, y - 1)
      (fun h => gridCell_some hrect2 hx hx2 (by omega) (by omega))
  obtain ⟨vm5, h5eq, h5mono, h5mem⟩ :=
    checkedAppendSpec t.game_grid (y < (t.game_grid_height : Int) - 1)
      (y + 1) x
      (if x = (t.game_grid_width : Int) - 1 ∧
          y = (t.game_grid_height : Int) - 1
        then vm3 ++ [(x, y + 1)] else vm3)
      (x, y + 1)
      (fun h => gridCell_some hrect2 hx hx2 (by omega) (by omega))
  have hmono4 : ∀ p ∈ vm3,
      p ∈ (if x = (t.game_grid_width : Int) - 1 ∧
          y = (t.game_grid_height : Int) - 1
        then vm3 ++ [(x, y + 1)] else vm3) := by
    intro p hp
    split
    · exact List.mem_append_left _ hp
    · exact hp
  refine ⟨vm5, ?_, ?_, ?_, ?_⟩
  · simp only [Trainer.get_valid_moves]
    rw [h1eq]
    simp only [Option.some_bind]
    rw [h2eq]
    simp only [Option.some_bind]
    rw [h3eq]
    simp only [Option.some_bind]
    rw [h5eq]
  · exact h5mono _ (hmono4 _ (h3mono _ (h2mono _ (h1mono _ (by simp)))))
  · intro hcorner
    refine h5mono _ ?_
    rw [if_pos hcorner]
    exact List.mem_append_right _ (by simp)
  · intro p hp
    rcases h5mem p hp with hp4 | ⟨hcond, rfl, hcell⟩
    · by_cases hcorner : x = (t.game_grid_width : Int) - 1 ∧
          y = (t.game_grid_height : Int) - 1
      · rw [if_pos hcorner] at hp4
        rcases List.mem_append.mp hp4 with hp3 | hp3
        · rcases h3mem p hp3 with hp2 | ⟨hcond, rfl, hcell⟩
          · rcases h2mem p hp2 with hp1 | ⟨hcond, rfl, hcell⟩
            · rcases h1mem p hp1 with hp0 | ⟨hcond, rfl, hcell⟩
              · have : p = (x, y) := by simpa using hp0
                subst this
                exact Or.inr ⟨hx, hx2, hy, hy2, hcur⟩
              · exact Or.inr ⟨by omega, by omega, hy, hy2, hcell⟩
            · exact Or.inr ⟨by omega, by omega, hy, hy2, hcell⟩
          · exact Or.inr ⟨hx, hx2, by omega, by omega, hcell⟩
        · exact Or.inl ⟨by simpa using hp3, hcorner⟩
      · rw [if_neg hcorner] at hp4
        rcases h3mem p hp4 with hp2 | ⟨hcond, rfl, hcell⟩
        · rcases h2mem p hp2 with hp1 | ⟨hcond, rfl, hcell⟩
          · rcases h1mem p hp1 with hp0 | ⟨hcond, rfl, hcell⟩
            · have : p = (x, y) := by simpa using hp0
              subst this
              exact Or.inr ⟨hx, hx2, hy, hy2, hcur⟩
            · exact Or.inr ⟨by omega, by omega, hy, hy2, hcell⟩
          · exact Or.inr ⟨by omega, by omega, hy, hy2, hcell⟩
        · exact Or.inr ⟨hx, hx2, by omega, by omega, hcell⟩
    · exact Or.inr ⟨hx, hx2, by omega, by omega, hcell⟩

/-- C6 witness: the bottom-right corner (2, 2) of the 3×3 wall-free
example level. -/
theorem get_valid_moves_members_witness :
    ∃ l, exTrainer.get_valid_moves 2 2 = some l ∧
      ((2 : Int), (2 : Int)) ∈ l ∧
      (((2 : Int) = (exTrainer.game_grid_width : Int) - 1 ∧
        (2 : Int) = (exTrainer.game_grid_height : Int) - 1) →
        ((2 : Int), (3 : Int)) ∈ l) ∧
      ∀ p ∈ l,
        (p = ((2 : Int), (3 : Int)) ∧
          (2 : Int) = (exTrainer.game_grid_width : Int) - 1 ∧
          (2 : Int) = (exTrainer.game_grid_height : Int) - 1) ∨
        (0 ≤ p.1 ∧ p.1 < (exTrainer.game_grid_width : Int) ∧ 0 ≤ p.2 ∧
          p.2 < (exTrainer.game_grid_height : Int) ∧
          gridCell exTrainer.game_grid p.2 p.1 ≠
            some WALL_CELL_STATE_CODE) := by
  have h := get_valid_moves_members exTrainer 2 2 (by decide) (by decide)
    (by norm_num) (by norm_num [exTrainer]) (by norm_num)
    (by norm_num [exTrainer]) (by decide)
  simpa using h

lemma argmaxLoop_all_le (l : List ℚ) (b : ℚ) (d : Int) (i : Nat)
    (h : ∀ v ∈ l, v ≤ b) : argmaxLoop l b d i = d := by
  induction l generalizing i with
  | nil => rfl
  | cons v vs ih =>
    simp only [argmaxLoop]
    rw [if_neg (not_lt.mpr (h v (by simp)))]
    exact ih (i + 1) (fun w hw => h w (by simp [hw]))

lemma argmaxLoop_first_max (l : List ℚ) (b : ℚ) (d : Int) (i : Nat)
    (m : ℚ) (hmem : m ∈ l) (hmax : ∀ v ∈ l, v ≤ m) (hlt : b < m) :
    ∃ k, k < l.length ∧ l.get? k = some m ∧
      (∀ j, j < k → ∀ w, l.get? j = some w → w < m) ∧
      argmaxLoop l b d i = (i : Int) + (k : Int) := by
  induction l generalizing b d i with
  | nil => simp at hmem
  | cons v vs ih =>
    by_cases hv : b < v
    · by_cases hvm : v = m
      · refine ⟨0, by simp, by simp [hvm], ?_, ?_⟩
        · intro j hj
          exact absurd hj (Nat.not_lt_zero j)
        · simp only [argmaxLoop]
          rw [if_pos hv,
            argmaxLoop_all_le vs v (i : Int) (i + 1)
              (fun w hw => hvm ▸ hmax w (by simp [hw]))]
          simp
      · have hm2 : m ∈ vs := by
          rcases List.mem_cons.mp hmem with h1 | h1
          · exact absurd h1.symm hvm
          · exact h1
        have hlt2 : v < m := lt_of_le_of_ne (hmax v (by simp)) hvm
        obtain ⟨k, hk1, hk2, hk3, hk4⟩ :=
          ih v (i : Int) (i + 1) hm2 (fun w hw => hmax w (by simp [hw])) hlt2
        refine ⟨k + 1, by simpa using hk1, by simpa using hk2, ?_, ?_⟩
        · intro j hj w hjw
          cases j with
          | zero =>
            have : w = v := by simpa using hjw.symm
            exact this ▸ hlt2
          | succ j2 => exact hk3 j2 (by omega) w (by simpa using hjw)
        · simp only [argmaxLoop]
          rw [if_pos hv, hk4]
          push_cast
          ring
    · have hvm : v < m := lt_of_le_of_lt (not_lt.mp hv) hlt
      have hm2 : m ∈ vs := by
        rcases List.mem_cons.mp hmem with h1 | h1
        · exact absurd (h1 ▸ hvm) (lt_irrefl m)
        · exact h1
      obtain ⟨k, hk1, hk2, hk3, hk4⟩ :=
        ih b d (i + 1) hm2 (fun w hw => hmax w (by simp [hw])) hlt
      refine ⟨k + 1, by simpa using hk1, by simpa using hk2, ?_, ?_⟩
      · intro j hj w hjw
        cases j with
        | zero =>
          have : w = v := by simpa using hjw.symm
          exact this ▸ hvm
        | succ j2 => exact hk3 j2 (by omega) w (by simpa using hjw)
      · simp only [argmaxLoop]
        rw [if_neg hv, hk4]
        push_cast
        ring

lemma exists_list_max (l : List ℚ) (hne : l ≠ []) :
    ∃ m ∈ l, ∀ v ∈ l, v ≤ m := by
  induction l with
  | nil => exact absurd rfl hne
  | cons v vs ih =>
    by_cases h : vs = []
    · subst h
      exact ⟨v, by simp, by simp⟩
    · obtain ⟨m, hm1, hm2⟩ := ih h
      by_cases hvm : v ≤ m
      · refine ⟨m, by simp [hm1], ?_⟩
        intro w hw
        rcases List.mem_cons.mp hw with rfl | hw2
        · exact hvm
        · exact hm2 w hw2
      · refine ⟨v, by simp, ?_⟩
        intro w hw
        rcases List.mem_cons.mp hw with rfl | hw2
        · exact le_refl w
        · exact (hm2 w hw2).trans (le_of_not_le hvm)

/-- C10: the decision loop starts its running maximum at −1 and replaces it
only on strictly greater values.  If some output entry exceeds −1, the
selected index is the first index attaining the maximum of the vector; if
every entry is ≤ −1, the index remains −1 and the `EnemyAction` conversion
fails rather than yielding any action. -/
theorem selectDecision_argmax (output : List ℚ) :
    ((∀ v ∈ output, v ≤ -1) → selectDecision output = -1 ∧
      EnemyAction.ofIndex (selectDecision output) = none) ∧
    ((∃ v ∈ output, -1 < v) →
      ∃ k : Nat, k < output.length ∧ selectDecision output = (k : Int) ∧
        ∃ m, output.get? k = some m ∧ (∀ v ∈ output, v ≤ m) ∧
          ∀ j, j < k → ∀ w, output.get? j = some w → w < m) := by
  constructor
  · intro h
    have h1 : selectDecision output = -1 :=
      argmaxLoop_all_le output (-1) (-1) 0 h
    exact ⟨h1, by rw [h1]; rfl⟩
  · rintro ⟨v, hv, hvgt⟩
    have hne : output ≠ [] := by
      intro h
      subst h
      simp at hv
    obtain ⟨m, hm1, hm2⟩ := exists_list_max output hne
    have hltm : (-1 : ℚ) < m := lt_of_lt_of_le hvgt (hm2 v hv)
    obtain ⟨k, hk1, hk2, hk3, hk4⟩ :=
      argmaxLoop_first_max output (-1) (-1) 0 m hm1 hm2 hltm
    refine ⟨k, hk1, ?_, m, hk2, hm2, hk3⟩
    rw [selectDecision, hk4]
    simp

/-- C10 witness: an all-below-−1 vector selects nothing, and a vector with
entries above −1 selects the first maximum (index 1 of [0, 3, 3]). -/
theorem selectDecision_argmax_witness :
    (selectDecision [(-2 : ℚ), (-5 : ℚ)] = -1 ∧
      EnemyAction.ofIndex (selectDecision [(-2 : ℚ), (-5 : ℚ)]) = none) ∧
    (∃ k : Nat, k < ([(0 : ℚ), 3, 3] : List ℚ).length ∧
      selectDecision [(0 : ℚ), 3, 3] = (k : Int) ∧
      ∃ m, ([(0 : ℚ), 3, 3] : List ℚ).get? k = some m ∧
        (∀ v ∈ ([(0 : ℚ), 3, 3] : List ℚ), v ≤ m) ∧
        ∀ j, j < k → ∀ w, ([(0 : ℚ), 3, 3] : List ℚ).get? j = some w →
          w < m) :=
  ⟨(selectDecision_argmax [(-2 : ℚ), (-5 : ℚ)]).1 (by decide),
   (selectDecision_argmax [(0 : ℚ), 3, 3]).2 ⟨0, by decide, by decide⟩⟩

lemma exRun_eq (q : Nat → ℚ) (hq0 : q 0 = 0) (hq1 : q 1 = 1) :
    simulateSteps exTrainer standPolicy q [(1, 0), (2, 0)] = some exResult := by
  have e1 : simulateSteps exTrainer standPolicy q [(1, 0), (2, 0)] =
      some ⟨100, 2,
        (0 : ℚ) - q 1 / ((MAX_PLAYER_MOVES : ℚ)) ^ 2 -
          q 0 / ((MAX_PLAYER_MOVES : ℚ)) ^ 2,
        [(2, 0)], Outcome.moveLimit⟩ := rfl
  rw [e1, hq0, hq1]
  simp only [Option.some.injEq, SimResult.mk.injEq, exResult]
  norm_num [MAX_PLAYER_MOVES]

/-- C5: the simulator applies exactly one terminal adjustment of magnitude
`(moveLimit − movesMade)² + (startingHealth − health)` per trajectory —
subtracted when final health is positive, added otherwise — and on the
spec's concrete example (3×3 wall-free grid, trajectory [(1,0),(2,0)],
policy always Stand) the loop fitness is the pure proximity term −1/10000,
so no +0.1 shaping reward was ever added, and the terminal term is −9604. -/
theorem fitness_single_terminal_adjustment :
    (∀ (t : Trainer) (pol : Policy) (sqrtQ : Nat → ℚ)
      (moves : List (Int × Int)) (r : SimResult),
      simulateSteps t pol sqrtQ moves = some r →
      playTrajectoryFitness t pol sqrtQ moves =
        some (if 0 < r.player_health then r.fitness - terminalMagnitude r
          else r.fitness + terminalMagnitude r)) ∧
    (∀ q : Nat → ℚ, q 0 = 0 → q 1 = 1 →
      simulateSteps exTrainer standPolicy q [(1, 0), (2, 0)] =
        some exResult ∧
      playTrajectoryFitness exTrainer standPolicy q [(1, 0), (2, 0)] =
        some (-(1 / 10000) - 9604)) := by
  constructor
  · intro t pol sqrtQ moves r hr
    simp only [playTrajectoryFitness, hr]
    split <;> rfl
  · intro q hq0 hq1
    have e2 := exRun_eq q hq0 hq1
    refine ⟨e2, ?_⟩
    simp only [playTrajectoryFitness, e2]
    norm_num [exResult, terminalMagnitude, MAX_PLAYER_MOVES,
      PLAYER_STARTING_HEALTH]

/-- C5 witness: the example run instantiated with a concrete square
root. -/
theorem fitness_single_terminal_adjustment_witness :
    playTrajectoryFitness exTrainer standPolicy sqrtRat [(1, 0), (2, 0)] =
      some (if 0 < exResult.player_health
        then exResult.fitness - terminalMagnitude exResult
        else exResult.fitness + terminalMagnitude exResult) ∧
    (simulateSteps exTrainer standPolicy sqrtRat [(1, 0), (2, 0)] =
      some exResult ∧
     playTrajectoryFitness exTrainer standPolicy sqrtRat [(1, 0), (2, 0)] =
      some (-(1 / 10000) - 9604)) := by
  have hq0 : sqrtRat 0 = 0 := by simp [sqrtRat]
  have hq1 : sqrtRat 1 = 1 := by simp [sqrtRat]
  have h2 := fitness_single_terminal_adjustment.2 sqrtRat hq0 hq1
  exact ⟨fitness_single_terminal_adjustment.1 exTrainer standPolicy sqrtRat
    [(1, 0), (2, 0)] exResult h2.1, h2⟩

lemma runMoves_outcomes (t : Trainer) (pol : Policy) (sqrtQ : Nat → ℚ) :
    ∀ (moves : List (Int × Int)) (made : Nat) (s : SimState),
      0 < s.player_health →
      ∀ r, runMoves t pol sqrtQ moves made s = some r →
      (made ≤ r.moves_made ∧ r.moves_made ≤ made + moves.length) ∧
      (r.outcome = Outcome.escaped → made < r.moves_made ∧
        moves.get? (r.moves_made - made - 1) =
          some ((t.game_grid_width : Int) - 1,
            (t.game_grid_height : Int)) ∧
        0 < r.player_health) ∧
      (r.outcome = Outcome.defeated → r.player_health ≤ 0) ∧
      (r.outcome = Outcome.moveLimit →
        r.moves_made = made + moves.length ∧ 0 < r.player_health) := by
  intro moves
  induction moves with
  | nil =>
    intro made s hs r hr
    simp only [runMoves] at hr
    obtain rfl := Option.some.inj hr
    dsimp only
    refine ⟨⟨le_refl _, by simp⟩, ?_, ?_, ?_⟩
    · intro h; simp at h
    · intro h; simp at h
    · intro _; exact ⟨by simp, hs⟩
  | cons pxy rest ih =>
    intro made s hs r hr
    obtain ⟨px, py⟩ := pxy
    simp only [runMoves] at hr
    by_cases hesc : px = (t.game_grid_width : Int) - 1 ∧
        py = (t.game_grid_height : Int)
    · rw [if_pos hesc] at hr
      obtain rfl := Option.some.inj hr
      dsimp only
      refine ⟨⟨by omega, by simp only [List.length_cons]; omega⟩, ?_, ?_, ?_⟩
      · intro _
        refine ⟨by omega, ?_, hs⟩
        have h0 : made + 1 - made - 1 = 0 := by omega
        rw [h0]
        simp [hesc.1, hesc.2]
      · intro h; simp at h
      · intro h; simp at h
    · rw [if_neg hesc] at hr
      cases hre : runEnemies t pol sqrtQ px py 0 s.enemy_positions.length s
        with
      | none => simp only [hre] at hr; exact absurd hr (by simp)
      | some s2 =>
        simp only [hre] at hr
        by_cases hdead : s2.player_health ≤ 0
        · rw [if_pos hdead] at hr
          obtain rfl := Option.some.inj hr
          dsimp only
          refine ⟨⟨by omega, by simp only [List.length_cons]; omega⟩,
            ?_, ?_, ?_⟩
          · intro h; simp at h
          · intro _; exact hdead
          · intro h; simp at h
        · rw [if_neg hdead] at hr
          obtain ⟨⟨hb1, hb2⟩, hesc2, hdef2, hml2⟩ :=
            ih (made + 1) s2 (by omega) r hr
          refine ⟨⟨by omega, by simp only [List.length_cons]; omega⟩,
            ?_, hdef2, ?_⟩
          · intro ho
            obtain ⟨hm1, hm2, hm3⟩ := hesc2 ho
            refine ⟨by omega, ?_, hm3⟩
            have h1 : r.moves_made - made - 1 =
                (r.moves_made - (made + 1) - 1) + 1 := by omega
            rw [h1, List.get?_cons_succ]
            exact hm2
          · intro ho
            obtain ⟨hm1, hm2⟩ := hml2 ho
            exact ⟨by simp only [List.length_cons]; omega, hm2⟩

/-- C9: whenever one trajectory's loop completes without raising, on a
trajectory no longer than the move limit, it ends in exactly one of the
three outcomes and the step count never exceeds the limit: an escape exit
happened on a trajectory entry equal to the escape coordinate with health
still positive (the check runs before any enemy acts that step), a
defeated exit has non-positive final health, and a move-limit exit
consumed the whole trajectory with positive health. -/
theorem episode_three_outcomes (t : Trainer) (pol : Policy)
    (sqrtQ : Nat → ℚ) (moves : List (Int × Int))
    (hlen : moves.length ≤ MAX_PLAYER_MOVES) (r : SimResult)
    (hr : simulateSteps t pol sqrtQ moves = some r) :
    r.moves_made ≤ moves.length ∧ r.moves_made ≤ MAX_PLAYER_MOVES ∧
    (r.outcome = Outcome.escaped →
      moves.get? (r.moves_made - 1) =
        some ((t.game_grid_width : Int) - 1,
          (t.game_grid_height : Int)) ∧
      0 < r.player_health) ∧
    (r.outcome = Outcome.defeated → r.player_health ≤ 0) ∧
    (r.outcome = Outcome.moveLimit → r.moves_made = moves.length ∧
      0 < r.player_health) := by
  obtain ⟨⟨hb1, hb2⟩, hesc, hdef, hml⟩ :=
    runMoves_outcomes t pol sqrtQ moves 0
      ⟨PLAYER_STARTING_HEALTH, t.enemy_start_positions, 0⟩
      (by norm_num [PLAYER_STARTING_HEALTH]) r hr
  refine ⟨by omega, by omega, ?_, hdef, ?_⟩
  · intro ho
    obtain ⟨h1, h2, h3⟩ := hesc ho
    have h0 : r.moves_made - 1 = r.moves_made - 0 - 1 := by omega
    rw [h0]
    exact ⟨h2, h3⟩
  · intro ho
    obtain ⟨h1, h2⟩ := hml ho
    exact ⟨by omega, h2⟩

/-- C9 witness: the example run ends at the move limit, within bounds. -/
theorem episode_three_outcomes_witness :
    exResult.moves_made ≤ ([((1 : Int), (0 : Int)), (2, 0)]).length ∧
    exResult.moves_made ≤ MAX_PLAYER_MOVES ∧
    (exResult.outcome = Outcome.escaped →
      ([((1 : Int), (0 : Int)), (2, 0)]).get? (exResult.moves_made - 1) =
        some ((exTrainer.game_grid_width : Int) - 1,
          (exTrainer.game_grid_height : Int)) ∧
      0 < exResult.player_health) ∧
    (exResult.outcome = Outcome.defeated → exResult.player_health ≤ 0) ∧
    (exResult.outcome = Outcome.moveLimit →
      exResult.moves_made = ([((1 : Int), (0 : Int)), (2, 0)]).length ∧
      0 < exResult.player_health) := by
  have hq0 : sqrtRat 0 = 0 := by simp [sqrtRat]
  have hq1 : sqrtRat 1 = 1 := by simp [sqrtRat]
  exact episode_three_outcomes exTrainer standPolicy sqrtRat
    [(1, 0), (2, 0)] (by norm_num [MAX_PLAYER_MOVES]) exResult
    (exRun_eq sqrtRat hq0 hq1)
